import Mathlib

/-!
Shallow embedding of the udp-socket crate (src/lib.rs, src/proto.rs,
src/socket.rs) and proofs about its specified behaviour.

Modelling conventions:
* Machine integers become Nat; the two-bit ECN mask uses Nat.land.
* IP addresses are modelled as tagged Nat values; an Ipv6 address is its
  128-bit numeric value, so the unspecified address is 0.
* Kernel syscalls are nondeterministic from the program's point of view, so
  each embedded operation takes the kernel's responses as an explicit
  parameter: for the fallback send loop a function from the syscall index
  within the call to the syscall's result, for the fallback recv the single
  result of recv_from.
* Fallible Rust code returning io::Result becomes Except IOError.
* A Rust slice-index panic (buffers[0] or meta[0] on an empty slice) is
  modelled by Option.none around the call's outcome.
-/

set_option autoImplicit false
set_option maxRecDepth 4096

/-- Abstract stand-in for std::io::Error; only identity matters here. -/
structure IOError where
  code : Nat
  deriving DecidableEq

/-- Model of std::net::IpAddr: a V4 or a V6 address, each as its numeric value. -/
inductive IpAddr where
  | v4 (addr : Nat)
  | v6 (addr : Nat)
  deriving DecidableEq

namespace Ipv6Addr

/-- Numeric value of std::net::Ipv6Addr::UNSPECIFIED, the all-zero address. -/
def UNSPECIFIED : Nat := 0

end Ipv6Addr

/-- Model of std::net::SocketAddr: an IP address paired with a port. -/
structure SocketAddr where
  ip : IpAddr
  port : Nat
  deriving DecidableEq

/-- Embeds EcnCodepoint from src/proto.rs: the closed three-value enumeration. -/
inductive EcnCodepoint where
  | ECT0
  | ECT1
  | CE
  deriving DecidableEq

namespace EcnCodepoint

/-- Embeds EcnCodepoint::from_bits from src/proto.rs: mask to two bits, then
match the pattern, returning none for the pattern 0b00. -/
def from_bits (x : Nat) : Option EcnCodepoint :=
  match x &&& 0b11 with
  | 0b10 => some ECT0
  | 0b01 => some ECT1
  | 0b11 => some CE
  | _ => none

end EcnCodepoint

/-- Embeds Transmit from src/proto.rs: one outgoing datagram descriptor. -/
structure Transmit where
  destination : SocketAddr
  ecn : Option EcnCodepoint
  contents : List Nat
  segment_size : Option Nat
  src_ip : Option IpAddr
  deriving DecidableEq

/-- Embeds RecvMeta from src/proto.rs: metadata of one received datagram. -/
structure RecvMeta where
  source : SocketAddr
  len : Nat
  ecn : Option EcnCodepoint
  dst_ip : Option IpAddr
  deriving DecidableEq

namespace RecvMeta

/-- Embeds the Default impl for RecvMeta from src/proto.rs. -/
def default : RecvMeta :=
  { source := { ip := IpAddr.v6 Ipv6Addr.UNSPECIFIED, port := 0 }
    len := 0
    ecn := none
    dst_ip := none }

end RecvMeta

/-- Embeds UdpCapabilities from src/proto.rs. -/
structure UdpCapabilities where
  max_gso_segments : Nat
  deriving DecidableEq

/-- Embeds BATCH_SIZE from src/lib.rs: 32 when cfg targets linux, 1 otherwise.
The compile-time cfg flag becomes an explicit Bool parameter. -/
def BATCH_SIZE (target_os_linux : Bool) : Nat :=
  if target_os_linux then 32 else 1

namespace fallback

/-- Embeds fallback::max_gso_segments from src/socket.rs: unconditionally Ok(1). -/
def max_gso_segments : Except IOError Nat :=
  Except.ok 1

end fallback

namespace unix

/-- Modelled from the spec: the unix implementation of max_gso_segments is not
under src/ (src/unix.rs is referenced by lib.rs but absent). Per the spec's
Capability Probe contract, the probe attempts to enable the segmentation
option; if the kernel rejects it the call must not fail and reports 1, and on
success it reports the probed segment count. The kernel's acceptance and the
probed count are explicit parameters. -/
def max_gso_segments (kernelAccepts : Bool) (probed : Nat) : Except IOError Nat :=
  Except.ok (if kernelAccepts then probed else 1)

end unix

namespace UdpSocket

/-- Embeds UdpSocket::capabilities from src/socket.rs, generic over the active
platform's max_gso_segments result (the cfg-selected platform module). -/
def capabilities (platformMaxGso : Except IOError Nat) : Except IOError UdpCapabilities :=
  match platformMaxGso with
  | Except.ok n => Except.ok { max_gso_segments := n }
  | Except.error e => Except.error e

end UdpSocket

namespace fallback

/-- Embeds the loop body of fallback::send from src/socket.rs. The kernel's
response to the i-th send_to syscall of this call is kernel i; idx is the
index of the next syscall and sent the count of successes so far. On Ok the
loop continues; on Err it returns Ok(sent) when sent is nonzero and propagates
the error otherwise. -/
def sendGo (kernel : Nat → Except IOError Nat) :
    List Transmit → Nat → Nat → Except IOError Nat
  | [], _, sent => Except.ok sent
  | _ :: rest, idx, sent =>
    match kernel idx with
    | Except.ok _ => sendGo kernel rest (idx + 1) (sent + 1)
    | Except.error e => if sent ≠ 0 then Except.ok sent else Except.error e

/-- Embeds fallback::send from src/socket.rs: the loop starting with no
syscalls issued and no successes recorded. -/
def send (kernel : Nat → Except IOError Nat) (transmits : List Transmit) :
    Except IOError Nat :=
  sendGo kernel transmits 0 0

/-- Instrumented run of the fallback::send loop that also records, in order,
the transmits actually handed to send_to. -/
def sendTraceGo (kernel : Nat → Except IOError Nat) :
    List Transmit → Nat → Nat → List Transmit × Except IOError Nat
  | [], _, sent => ([], Except.ok sent)
  | t :: rest, idx, sent =>
    match kernel idx with
    | Except.ok _ =>
      let r := sendTraceGo kernel rest (idx + 1) (sent + 1)
      (t :: r.1, r.2)
    | Except.error e => ([t], if sent ≠ 0 then Except.ok sent else Except.error e)

/-- Instrumented fallback::send starting from the initial state. -/
def sendTrace (kernel : Nat → Except IOError Nat) (transmits : List Transmit) :
    List Transmit × Except IOError Nat :=
  sendTraceGo kernel transmits 0 0

/-- Embeds fallback::recv from src/socket.rs. kernel is the result of
recv_from as (payload length, source address). Rust evaluates buffers[0]
first (panicking on an empty slice, modelled as none), then recv_from, whose
error is propagated by the question-mark operator before meta[0] is written
(so an empty meta panics only after a successful recv_from). On success
meta[0] is overwritten with the source, the length, no ECN and no destination
IP, and the call returns Ok(1). -/
def recv (kernel : Except IOError (Nat × SocketAddr))
    (buffers : List (List Nat)) (meta : List RecvMeta) :
    Option (Except IOError Nat × List RecvMeta) :=
  match buffers with
  | [] => none
  | _ :: _ =>
    match kernel with
    | Except.error e => some (Except.error e, meta)
    | Except.ok (len, source) =>
      match meta with
      | [] => none
      | _ :: rest =>
        some (Except.ok 1,
          { source := source, len := len, ecn := none, dst_ip := none } :: rest)

end fallback

namespace UdpSocket

/-- Embeds the while loop of the async UdpSocket::send from src/socket.rs.
poll i is the result eventually returned by poll_send when invoked with the
suffix starting at offset i (Pending outcomes are absorbed by the await).
fuel bounds the number of polls; none models a loop that is still running
when fuel runs out. -/
def sendLoop (poll : Nat → Except IOError Nat) (n : Nat) :
    Nat → Nat → Option (Except IOError Nat)
  | fuel, i =>
    if i < n then
      match fuel with
      | 0 => none
      | fuel + 1 =>
        match poll i with
        | Except.error e => some (Except.error e)
        | Except.ok k => sendLoop poll n fuel (i + k)
    else
      some (Except.ok i)

/-- Embeds the async UdpSocket::send from src/socket.rs for a transmit slice
of length n, giving the loop enough fuel for one poll per transmit. -/
def send (poll : Nat → Except IOError Nat) (n : Nat) :
    Option (Except IOError Nat) :=
  sendLoop poll n n 0

end UdpSocket

/-- Concrete error used by witnesses. -/
def e0 : IOError := { code := 11 }

/-- Concrete peer address used by witnesses. -/
def addr0 : SocketAddr := { ip := IpAddr.v4 2130706433, port := 9000 }

/-- Concrete transmit used by witnesses. -/
def t0 : Transmit :=
  { destination := addr0
    ecn := none
    contents := [1, 2, 3]
    segment_size := none
    src_ip := none }

/-- Concrete three-transmit slice used by witnesses. -/
def ts0 : List Transmit := [t0, t0, t0]

/-- Kernel that fails every syscall; used by witnesses. -/
def kErr : Nat → Except IOError Nat :=
  fun _ => Except.error e0

/-- Kernel that accepts every syscall; used by witnesses. -/
def kAll : Nat → Except IOError Nat :=
  fun _ => Except.ok 3

/-- Kernel that accepts the first two syscalls and then fails; used by
witnesses. -/
def kTwo : Nat → Except IOError Nat :=
  fun i => if i < 2 then Except.ok 3 else Except.error e0

/-- Poll outcome function completing one transmit per poll; used by
witnesses. -/
def pollOne : Nat → Except IOError Nat :=
  fun _ => Except.ok 1

/-- Concrete recv_from result used by witnesses. -/
def kRecvOk : Except IOError (Nat × SocketAddr) :=
  Except.ok (3, addr0)

/-- Concrete one-buffer slice used by witnesses. -/
def bufs0 : List (List Nat) := [[0, 0, 0, 0]]

/-- Concrete two-slot meta slice used by witnesses. -/
def meta0 : List RecvMeta := [RecvMeta.default, RecvMeta.default]

/-- Claim C3: from_bits maps the two-bit patterns exactly, with 0b00 mapping to
none rather than a fourth enum value, and the enumeration is closed over the
three codepoints. -/
theorem EcnCodepoint.from_bits_two_bit_patterns :
    EcnCodepoint.from_bits 0b10 = some EcnCodepoint.ECT0 ∧
    EcnCodepoint.from_bits 0b01 = some EcnCodepoint.ECT1 ∧
    EcnCodepoint.from_bits 0b11 = some EcnCodepoint.CE ∧
    EcnCodepoint.from_bits 0b00 = none ∧
    ∀ c : EcnCodepoint,
      c = EcnCodepoint.ECT0 ∨ c = EcnCodepoint.ECT1 ∨ c = EcnCodepoint.CE := by
  refine ⟨rfl, rfl, rfl, rfl, ?_⟩
  intro c
  cases c
  · exact Or.inl rfl
  · exact Or.inr (Or.inl rfl)
  · exact Or.inr (Or.inr rfl)

/-- Claim C4: for every u8 input, masking off the upper six bits before the
call never changes the result of from_bits. -/
theorem EcnCodepoint.from_bits_mask_invariant :
    ∀ x : Fin 256, EcnCodepoint.from_bits x.val =
      EcnCodepoint.from_bits (x.val &&& 0b11) := by
  decide

/-- Claim C6: RecvMeta::default() has length zero, no ECN, no destination IP,
and the unspecified IPv6 source address with port 0; an address equals that
default source exactly when it is the unspecified IPv6 address at port 0, so
the default source is distinguishable from any real peer address. -/
theorem RecvMeta.default_fields :
    RecvMeta.default.len = 0 ∧
    RecvMeta.default.ecn = none ∧
    RecvMeta.default.dst_ip = none ∧
    RecvMeta.default.source =
      { ip := IpAddr.v6 Ipv6Addr.UNSPECIFIED, port := 0 } ∧
    ∀ a : SocketAddr,
      a = RecvMeta.default.source ↔
        (a.ip = IpAddr.v6 Ipv6Addr.UNSPECIFIED ∧ a.port = 0) := by
  refine ⟨rfl, rfl, rfl, rfl, ?_⟩
  intro a
  constructor
  · intro h
    subst h
    exact ⟨rfl, rfl⟩
  · intro h
    cases a
    cases h.1
    cases h.2
    rfl

/-- Claim C9: BATCH_SIZE is 32, greater than 1, on the linux target and
exactly 1 on every other target. -/
theorem BATCH_SIZE_values :
    BATCH_SIZE true = 32 ∧ 1 < BATCH_SIZE true ∧ BATCH_SIZE false = 1 := by
  decide

/-- Claim C5: capabilities() reports max_gso_segments at least 1 on every
platform: on the fallback platform it succeeds unconditionally with exactly 1,
and with the spec-modelled unix probe it succeeds with a count of at least 1
whenever the probed segment count is at least 1, whether or not the kernel
accepts the segmentation option. -/
theorem UdpSocket.capabilities_ge_one (kernelAccepts : Bool) (probed : Nat)
    (hprobed : 1 ≤ probed) :
    UdpSocket.capabilities fallback.max_gso_segments =
      Except.ok { max_gso_segments := 1 } ∧
    ∃ caps, UdpSocket.capabilities (unix.max_gso_segments kernelAccepts probed) =
        Except.ok caps ∧ 1 ≤ caps.max_gso_segments := by
  refine ⟨rfl, ⟨{ max_gso_segments := if kernelAccepts then probed else 1 }, rfl, ?_⟩⟩
  cases kernelAccepts
  · simp
  · simpa using hprobed

/-- Witness for claim C5 at a concrete probed segment count. -/
theorem UdpSocket.capabilities_ge_one_witness :
    1 ≤ 64 ∧
    (UdpSocket.capabilities fallback.max_gso_segments =
        Except.ok { max_gso_segments := 1 } ∧
      ∃ caps, UdpSocket.capabilities (unix.max_gso_segments true 64) =
          Except.ok caps ∧ 1 ≤ caps.max_gso_segments) :=
  ⟨by decide, UdpSocket.capabilities_ge_one true 64 (by decide)⟩

/-- Helper: the fallback send loop succeeds with sent plus the slice length
when the kernel accepts every remaining syscall. -/
lemma fallback.sendGo_all_ok (kernel : Nat → Except IOError Nat)
    (ts : List Transmit) :
    ∀ (idx sent : Nat),
      (∀ i, i < ts.length → ∃ m, kernel (idx + i) = Except.ok m) →
      fallback.sendGo kernel ts idx sent = Except.ok (sent + ts.length) := by
  induction ts with
  | nil => intro idx sent _; simp [fallback.sendGo]
  | cons t rest IH =>
    intro idx sent H
    obtain ⟨m, hm⟩ := H 0 (by simp)
    rw [Nat.add_zero] at hm
    have H' : ∀ i, i < rest.length → ∃ m, kernel (idx + 1 + i) = Except.ok m := by
      intro i hi
      have h := H (i + 1) (by simpa using Nat.succ_lt_succ hi)
      rwa [show idx + (i + 1) = idx + 1 + i by omega] at h
    have hrec := IH (idx + 1) (sent + 1) H'
    simp only [fallback.sendGo, hm, hrec, List.length_cons]
    congr 1
    omega

/-- Helper: when the kernel accepts the first k syscalls of the loop and
fails the next one (still within the slice), the loop stops there, reporting
the successes unless there were none, in which case the error escapes. -/
lemma fallback.sendGo_err_at (kernel : Nat → Except IOError Nat)
    (ts : List Transmit) :
    ∀ (idx sent k : Nat) (e : IOError),
      k < ts.length →
      (∀ i, i < k → ∃ m, kernel (idx + i) = Except.ok m) →
      kernel (idx + k) = Except.error e →
      fallback.sendGo kernel ts idx sent =
        if sent + k = 0 then Except.error e else Except.ok (sent + k) := by
  induction ts with
  | nil => intro idx sent k e hk _ _; simp at hk
  | cons t rest IH =>
    intro idx sent k e hk Hok herr
    cases k with
    | zero =>
      rw [Nat.add_zero] at herr
      simp only [fallback.sendGo, herr]
      by_cases hs : sent = 0 <;> simp [hs]
    | succ kp =>
      obtain ⟨m, hm⟩ := Hok 0 (by omega)
      rw [Nat.add_zero] at hm
      have H' : ∀ i, i < kp → ∃ m, kernel (idx + 1 + i) = Except.ok m := by
        intro i hi
        have h := Hok (i + 1) (by omega)
        rwa [show idx + (i + 1) = idx + 1 + i by omega] at h
      have herr' : kernel (idx + 1 + kp) = Except.error e := by
        rwa [show idx + (kp + 1) = idx + 1 + kp by omega] at herr
      have hkp : kp < rest.length := by simp at hk; omega
      have hrec := IH (idx + 1) (sent + 1) kp e hkp H' herr'
      rw [show sent + 1 + kp = sent + (kp + 1) by omega] at hrec
      simp only [fallback.sendGo, hm, hrec]

/-- Claim C1: the fallback send obeys the partial-success policy. On a
non-empty slice, a failure of the very first syscall is returned unchanged;
after k at least 1 successes a failure is swallowed and Ok(k) is returned;
when every syscall succeeds the full slice length is returned. -/
theorem fallback.send_error_policy (kernel : Nat → Except IOError Nat)
    (ts : List Transmit) (e : IOError) (k : Nat) :
    (ts ≠ [] → kernel 0 = Except.error e →
      fallback.send kernel ts = Except.error e) ∧
    (1 ≤ k → k < ts.length → (∀ i, i < k → ∃ m, kernel i = Except.ok m) →
      kernel k = Except.error e → fallback.send kernel ts = Except.ok k) ∧
    ((∀ i, i < ts.length → ∃ m, kernel i = Except.ok m) →
      fallback.send kernel ts = Except.ok ts.length) := by
  refine ⟨?_, ?_, ?_⟩
  · intro hne h0
    have hlen : 0 < ts.length := List.length_pos.mpr hne
    have h := fallback.sendGo_err_at kernel ts 0 0 0 e hlen
      (fun i hi => absurd hi (by omega)) (by simpa using h0)
    simpa using h
  · intro hk1 hklen Hok herr
    have h := fallback.sendGo_err_at kernel ts 0 0 k e hklen
      (fun i hi => by simpa using Hok i hi) (by simpa using herr)
    rw [fallback.send, h]
    simp
    omega
  · intro Hok
    have h := fallback.sendGo_all_ok kernel ts 0 0
      (fun i hi => by simpa using Hok i hi)
    rw [fallback.send, h]
    simp

/-- Witness for claim C1: a kernel failing at once, a kernel failing after
two successes, and a kernel accepting everything, on a three-transmit slice. -/
theorem fallback.send_error_policy_witness :
    fallback.send kErr ts0 = Except.error e0 ∧
    fallback.send kTwo ts0 = Except.ok 2 ∧
    fallback.send kAll ts0 = Except.ok 3 :=
  ⟨(fallback.send_error_policy kErr ts0 e0 0).1 (by decide) rfl,
   (fallback.send_error_policy kTwo ts0 e0 2).2.1 (by decide) (by decide)
     (fun i hi => ⟨3, by simp [kTwo, hi]⟩) rfl,
   (fallback.send_error_policy kAll ts0 e0 3).2.2 (fun i _ => ⟨3, rfl⟩)⟩

/-- Helper: the result component of the instrumented loop agrees with the
plain fallback send loop. -/
lemma fallback.sendTraceGo_snd (kernel : Nat → Except IOError Nat)
    (ts : List Transmit) :
    ∀ (idx sent : Nat),
      (fallback.sendTraceGo kernel ts idx sent).2 =
        fallback.sendGo kernel ts idx sent := by
  induction ts with
  | nil => intro idx sent; rfl
  | cons t rest IH =>
    intro idx sent
    simp only [fallback.sendTraceGo, fallback.sendGo]
    cases kernel idx with
    | ok m => simpa using IH (idx + 1) (sent + 1)
    | error e => rfl

/-- Helper: the transmits handed to send_to form an initial segment of the
input slice, taken in order. -/
lemma fallback.sendTraceGo_take (kernel : Nat → Except IOError Nat)
    (ts : List Transmit) :
    ∀ (idx sent : Nat),
      ∃ n, (fallback.sendTraceGo kernel ts idx sent).1 = List.take n ts := by
  induction ts with
  | nil => intro idx sent; exact ⟨0, rfl⟩
  | cons t rest IH =>
    intro idx sent
    simp only [fallback.sendTraceGo]
    cases kernel idx with
    | ok m =>
      obtain ⟨n, hn⟩ := IH (idx + 1) (sent + 1)
      exact ⟨n + 1, by simp [hn]⟩
    | error e => exact ⟨1, by simp⟩

/-- Helper: when the loop run with equal syscall index and success count
returns Ok(k), the count covers at most the slice, at least the starting
state, and every syscall index below k succeeded. -/
lemma fallback.sendGo_ok_count (kernel : Nat → Except IOError Nat)
    (ts : List Transmit) :
    ∀ (sent k : Nat),
      fallback.sendGo kernel ts sent sent = Except.ok k →
      sent ≤ k ∧ k ≤ sent + ts.length ∧
        ∀ i, sent ≤ i → i < k → ∃ m, kernel i = Except.ok m := by
  induction ts with
  | nil =>
    intro sent k h
    simp only [fallback.sendGo, Except.ok.injEq] at h
    subst h
    exact ⟨Nat.le_refl _, by simp, fun i h1 h2 => (by omega : False).elim⟩
  | cons t rest IH =>
    intro sent k h
    simp only [fallback.sendGo] at h
    cases hk : kernel sent with
    | ok m =>
      rw [hk] at h
      simp only [] at h
      obtain ⟨h1, h2, h3⟩ := IH (sent + 1) k h
      refine ⟨by omega, by simp; omega, ?_⟩
      intro i hi1 hi2
      by_cases hie : i = sent
      · exact ⟨m, hie ▸ hk⟩
      · exact h3 i (by omega) hi2
    | error e =>
      rw [hk] at h
      simp only [] at h
      by_cases hs : sent = 0
      · simp [hs] at h
      · simp only [hs, ite_true, if_pos, Except.ok.injEq, ne_eq,
          not_false_iff] at h
        have hsk : sent = k := by
          by_cases hcond : sent ≠ 0
          · simpa [hcond] using h
          · omega
        subst hsk
        exact ⟨Nat.le_refl _, by simp, fun i h1 h2 => (by omega : False).elim⟩

/-- Claim C8: within one fallback send call, send_to syscalls are issued in
exactly the order the transmits appear in the slice (the issued transmits are
an in-order initial segment of the slice), the instrumented run returns the
same result as the real one, and a returned count Ok(k) always designates the
first k entries of the slice, each of which the kernel accepted. -/
theorem fallback.send_in_order (kernel : Nat → Except IOError Nat)
    (ts : List Transmit) (k : Nat) :
    (∃ n, (fallback.sendTrace kernel ts).1 = List.take n ts) ∧
    (fallback.sendTrace kernel ts).2 = fallback.send kernel ts ∧
    (fallback.send kernel ts = Except.ok k →
      k ≤ ts.length ∧ ∀ i, i < k → ∃ m, kernel i = Except.ok m) := by
  refine ⟨fallback.sendTraceGo_take kernel ts 0 0,
    fallback.sendTraceGo_snd kernel ts 0 0, ?_⟩
  intro h
  obtain ⟨h1, h2, h3⟩ := fallback.sendGo_ok_count kernel ts 0 k h
  exact ⟨by simpa using h2, fun i hi => h3 i (Nat.zero_le i) hi⟩

/-- Witness for claim C8: the all-accepting kernel on the three-transmit
slice reports a count bounded by the slice length. -/
theorem fallback.send_in_order_witness : 3 ≤ List.length ts0 :=
  ((fallback.send_in_order kAll ts0 3).2.2 rfl).1

/-- Helper: under the platform send contract (each successful poll completes
at least one and at most the remaining transmits), the async send loop always
terminates within its fuel, returning Ok of the full length or a kernel error
reported by one of the polled offsets. -/
lemma UdpSocket.sendLoop_runs (poll : Nat → Except IOError Nat) (n : Nat)
    (Hok : ∀ i k, i < n → poll i = Except.ok k → 1 ≤ k ∧ i + k ≤ n) :
    ∀ (fuel i : Nat), i ≤ n → n - i ≤ fuel →
      ∃ r, UdpSocket.sendLoop poll n fuel i = some r ∧
        (r = Except.ok n ∨
          ∃ j e, j < n ∧ poll j = Except.error e ∧ r = Except.error e) := by
  intro fuel
  induction fuel with
  | zero =>
    intro i hin hfuel
    have hi : i = n := by omega
    subst hi
    exact ⟨Except.ok i, by simp [UdpSocket.sendLoop], Or.inl rfl⟩
  | succ fuel IH =>
    intro i hin hfuel
    by_cases hi : i < n
    · cases hp : poll i with
      | error e =>
        refine ⟨Except.error e, ?_, Or.inr ⟨i, e, hi, hp, rfl⟩⟩
        simp [UdpSocket.sendLoop, hi, hp]
      | ok k =>
        obtain ⟨hk1, hk2⟩ := Hok i k hi hp
        obtain ⟨r, hr, hcase⟩ := IH (i + k) (by omega) (by omega)
        refine ⟨r, ?_, hcase⟩
        simpa [UdpSocket.sendLoop, hi, hp] using hr
    · have hieq : i = n := by omega
      subst hieq
      exact ⟨Except.ok i, by simp [UdpSocket.sendLoop], Or.inl rfl⟩

/-- Claim C10: the async UdpSocket::send resumes from the cumulative
completion count until done. On an empty slice it returns Ok(0) whatever the
polls would do (so no syscall outcome matters); when every polled offset
succeeds it returns Ok(n); any returned error is one reported by a poll on an
offset inside the slice; and under the platform send contract the loop always
terminates with a result. -/
theorem UdpSocket.send_completes (poll : Nat → Except IOError Nat) (n : Nat)
    (Hok : ∀ i k, i < n → poll i = Except.ok k → 1 ≤ k ∧ i + k ≤ n) :
    UdpSocket.send poll 0 = some (Except.ok 0) ∧
    ((∀ i, i < n → ∃ m, poll i = Except.ok m) →
      UdpSocket.send poll n = some (Except.ok n)) ∧
    (∀ e, UdpSocket.send poll n = some (Except.error e) →
      ∃ j, j < n ∧ poll j = Except.error e) ∧
    UdpSocket.send poll n ≠ none := by
  obtain ⟨r, hr, hcase⟩ :=
    UdpSocket.sendLoop_runs poll n Hok n 0 (Nat.zero_le n) (by omega)
  refine ⟨rfl, ?_, ?_, ?_⟩
  · intro Hall
    rcases hcase with hok | ⟨j, e, hj, hpj, _⟩
    · rw [UdpSocket.send, hr, hok]
    · obtain ⟨m, hm⟩ := Hall j hj
      rw [hm] at hpj
      exact absurd hpj (by simp)
  · intro e he
    rw [UdpSocket.send] at he
    rw [hr] at he
    have hre : r = Except.error e := by
      simpa using he
    rcases hcase with hok | ⟨j, e', hj, hpj, hre'⟩
    · rw [hok] at hre
      exact absurd hre (by simp)
    · rw [hre'] at hre
      have : e' = e := by
        simpa using hre
      exact ⟨j, hj, this ▸ hpj⟩
  · rw [UdpSocket.send, hr]
    simp

/-- Witness for claim C10: a poll completing one transmit per call drives a
two-transmit slice to completion. -/
theorem UdpSocket.send_completes_witness :
    UdpSocket.send pollOne 2 = some (Except.ok 2) :=
  (UdpSocket.send_completes pollOne 2
      (by intro i k hi hk; simp [pollOne] at hk; omega)).2.1
    (fun i _ => ⟨1, rfl⟩)

/-- Claim C2: every successful fallback recv returns Ok(1) (never Ok(0)),
leaves every meta slot other than slot zero unmodified, and, when the
underlying recv_from succeeds, overwrites meta[0] with the datagram's source
address and payload length, no ECN and no destination IP. -/
theorem fallback.recv_populates_slot_zero
    (kernel : Except IOError (Nat × SocketAddr))
    (buffers : List (List Nat)) (meta meta' : List RecvMeta)
    (r : Except IOError Nat)
    (h : fallback.recv kernel buffers meta = some (r, meta')) :
    (∀ n, r = Except.ok n → n = 1) ∧
    List.tail meta' = List.tail meta ∧
    (∀ len src, kernel = Except.ok (len, src) →
      r = Except.ok 1 ∧
      meta' = { source := src, len := len, ecn := none, dst_ip := none }
        :: List.tail meta) := by
  cases buffers with
  | nil => exact absurd h (by simp [fallback.recv])
  | cons b brest =>
    cases kernel with
    | error e =>
      simp only [fallback.recv, Option.some.injEq, Prod.mk.injEq] at h
      obtain ⟨hr, hm⟩ := h
      refine ⟨?_, by rw [← hm], ?_⟩
      · intro n hn
        rw [hn] at hr
        exact absurd hr (by simp)
      · intro len src hk
        exact absurd hk (by simp)
    | ok p =>
      obtain ⟨len0, src0⟩ := p
      cases meta with
      | nil => exact absurd h (by simp [fallback.recv])
      | cons m mrest =>
        simp only [fallback.recv, Option.some.injEq, Prod.mk.injEq] at h
        obtain ⟨hr, hm⟩ := h
        refine ⟨?_, by subst hm; rfl, ?_⟩
        · intro n hn
          rw [hn] at hr
          simpa using hr.symm
        · intro len src hk
          have hlen : len0 = len ∧ src0 = src := by
            simpa using hk
          subst hr
          subst hm
          rw [hlen.1, hlen.2]
          exact ⟨rfl, rfl⟩

/-- Witness for claim C2: a successful receive of three bytes from addr0 into
a one-buffer, two-slot pair leaves the second slot untouched. -/
theorem fallback.recv_populates_slot_zero_witness :
    List.tail
        [{ source := addr0, len := 3, ecn := none, dst_ip := none },
          RecvMeta.default] =
      List.tail meta0 :=
  (fallback.recv_populates_slot_zero kRecvOk bufs0 meta0
      [{ source := addr0, len := 3, ecn := none, dst_ip := none },
        RecvMeta.default]
      (Except.ok 1) rfl).2.1

/-- Counterexample for claim C7: fallback recv neither rejects nor truncates
an empty buffers slice; evaluating buffers[0] panics (modelled as none), even
though meta is non-empty, so recv does not avoid panics on all slice
lengths. -/
theorem fallback.recv_empty_buffers_panic_example :
    fallback.recv kRecvOk [] meta0 = none := rfl

/-- Claim C7 (amended): fallback recv touches only index 0 of each slice, so
with both slices non-empty it never panics regardless of a length mismatch
and leaves every meta slot beyond index 0 unmodified; but empty slices are
not rejected or truncated: an empty buffers slice panics (modelled none)
before the syscall. -/
theorem fallback.recv_index_zero_only
    (kernel : Except IOError (Nat × SocketAddr))
    (buffers : List (List Nat)) (meta : List RecvMeta) :
    (buffers ≠ [] → meta ≠ [] → fallback.recv kernel buffers meta ≠ none) ∧
    (buffers = [] → fallback.recv kernel buffers meta = none) ∧
    (∀ r meta', fallback.recv kernel buffers meta = some (r, meta') →
      List.tail meta' = List.tail meta) := by
  refine ⟨?_, ?_, ?_⟩
  · intro hb hm
    cases buffers with
    | nil => exact absurd rfl hb
    | cons b brest =>
      cases kernel with
      | error e => simp [fallback.recv]
      | ok p =>
        obtain ⟨len0, src0⟩ := p
        cases meta with
        | nil => exact absurd rfl hm
        | cons m mrest => simp [fallback.recv]
  · intro hb
    subst hb
    rfl
  · intro r meta' h
    cases buffers with
    | nil => exact absurd h (by simp [fallback.recv])
    | cons b brest =>
      cases kernel with
      | error e =>
        simp only [fallback.recv, Option.some.injEq, Prod.mk.injEq] at h
        rw [← h.2]
      | ok p =>
        obtain ⟨len0, src0⟩ := p
        cases meta with
        | nil => exact absurd h (by simp [fallback.recv])
        | cons m mrest =>
          simp only [fallback.recv, Option.some.injEq, Prod.mk.injEq] at h
          rw [← h.2]
          rfl

/-- Witness for claim C7 (amended): with the concrete non-empty buffer and
meta slices of unequal length, fallback recv does not panic. -/
theorem fallback.recv_index_zero_only_witness :
    fallback.recv kRecvOk bufs0 meta0 ≠ none :=
  (fallback.recv_index_zero_only kRecvOk bufs0 meta0).1
    (by decide) (by decide)
